import Mathlib

/-!
Shallow embedding of the Interaction Client Core of the Aperture inspector
client: the contract-validating parsers (`shared/api/parsers.ts`,
`shared/api/runtime.ts`) and the interaction orchestrator / timeline delta
tracker (`App.tsx`).

Modelling conventions:
* Decoded JSON values are modelled by `JsValue`; JSON numbers are modelled as
  exact rationals (JSON literals have no NaN/Infinity, so every modelled
  number is finite).
* A JS value that may be `undefined` (a missing object field) is modelled as
  `Option JsValue`, with `none` playing the role of `undefined`.
* JS string operations (`trim`, `toLowerCase`, `trimStart`, `slice`,
  `startsWith`, `parseInt`) are modelled by executable list-of-characters
  functions defined below.
* Wall-clock timestamps (`new Date()` in `nowEntry`) are outside the model;
  a transcript entry is its role and content.
-/

namespace Aperture

/-- A decoded JSON value (the result of a successful `JSON.parse`). -/
inductive JsValue where
  | null : JsValue
  | bool (b : Bool) : JsValue
  | num (q : ℚ) : JsValue
  | str (s : String) : JsValue
  | arr (elems : List JsValue) : JsValue
  | obj (fields : List (String × JsValue)) : JsValue

/-- JS property read `data[key]` on a decoded JSON object, modelled on the
field list (keys produced by `JSON.parse` are distinct); `none` is
`undefined`. -/
def objGet : List (String × JsValue) → String → Option JsValue
  | [], _ => none
  | (k, v) :: rest, key => if k = key then some v else objGet rest key

/-- Model of `asRecord` from `runtime.ts`: a non-null, non-array object yields its
fields, anything else yields the empty record. -/
def asRecordL : JsValue → List (String × JsValue)
  | .obj fields => fields
  | _ => []

/-- Model of `asRecord` applied to a possibly-`undefined` value (missing fields also
collapse to the empty record). -/
def asRecordO : Option JsValue → List (String × JsValue)
  | some v => asRecordL v
  | none => []

/-- Model of `asArray` from `runtime.ts`. -/
def asArrayL : JsValue → List JsValue
  | .arr elems => elems
  | _ => []

/-- Model of `toBool` from `runtime.ts`: true only for the literal boolean `true`
(`input === true`, no truthy coercion). -/
def toBool : Option JsValue → Bool
  | some (.bool true) => true
  | _ => false

/-- JS `Math.trunc` on an exact rational: truncation toward zero, i.e.
T-division of the numerator by the (positive) denominator. -/
def jsTrunc (q : ℚ) : ℤ := q.num.tdiv (q.den : ℤ)

/-- JS character test used by `trim`/`trimStart` and by `\s` in the
separator-stripping regex (ASCII whitespace; the model does not cover the
exotic Unicode space code points). -/
def jsWhite (c : Char) : Bool := c.isWhitespace

/-- JS `String.prototype.trimStart`. -/
def jsTrimStart (s : String) : String := ⟨s.toList.dropWhile jsWhite⟩

/-- JS `String.prototype.trim`. -/
def jsTrim (s : String) : String :=
  ⟨((s.toList.dropWhile jsWhite).reverse.dropWhile jsWhite).reverse⟩

/-- JS `String.prototype.toLowerCase` (ASCII case mapping). -/
def jsToLower (s : String) : String := ⟨s.toList.map Char.toLower⟩

/-- JS `String.prototype.slice(0, n)`. -/
def jsTake (n : ℕ) (s : String) : String := ⟨s.toList.take n⟩

/-- Character-list test: `pat` occurs at the start of `cs`. -/
def charsLeadWith : List Char → List Char → Bool
  | [], _ => true
  | _ :: _, [] => false
  | p :: ps, c :: cs => p == c && charsLeadWith ps cs

/-- JS `String.prototype.startsWith`. -/
def jsStartsWith (s pat : String) : Bool := charsLeadWith pat.toList s.toList

/-- Value of a decimal digit character. -/
def digitVal (c : Char) : ℕ := c.toNat - '0'.toNat

/-- JS `Number.parseInt(s, 10)`: skip leading whitespace, read an optional
sign, then the longest prefix of decimal digits; `none` models the `NaN`
result when no digit is found. -/
def jsParseInt10 (s : String) : Option ℤ :=
  let cs := s.toList.dropWhile jsWhite
  let signed : ℤ × List Char :=
    match cs with
    | '-' :: t => (-1, t)
    | '+' :: t => (1, t)
    | t => (1, t)
  let digits := signed.2.takeWhile Char.isDigit
  if digits.isEmpty then none
  else some (signed.1 * (digits.foldl (fun acc c => 10 * acc + digitVal c) 0 : ℕ))

/-- Model of `toInt` from `runtime.ts`: a (finite) number is truncated toward zero, a
string goes through `parseInt(s, 10)` with `NaN` collapsing to `0`, and every
other input yields `0`. -/
def toInt : Option JsValue → ℤ
  | some (.num q) => jsTrunc q
  | some (.str s) => (jsParseInt10 s).getD 0
  | _ => 0

/-- The enumerated parameter kind produced by `parseParamKind`
(`ActionParamKind` in `types.ts`). -/
inductive ActionParamKind where
  | string | integer | number | boolean | null | object | array | unknown
deriving DecidableEq, Repr

/-- The string-synonym table of `parseParamKind` (applied after trimming and
lower-casing). -/
def kindOfLowered (lowered : String) : ActionParamKind :=
  if lowered = "string" then .string
  else if lowered = "integer" ∨ lowered = "int" then .integer
  else if lowered = "number" ∨ lowered = "float" ∨ lowered = "double" then .number
  else if lowered = "boolean" ∨ lowered = "bool" then .boolean
  else if lowered = "null" then .null
  else if lowered = "object" then .object
  else if lowered = "array" then .array
  else .unknown

/-- JS `String(q)` for a number. Exact for integral values (the only case the
theorems below exercise); for a non-integral rational the model renders
`num/den` where JS would print the decimal form of the double. -/
def ratDisplay (q : ℚ) : String :=
  if q.den = 1 then toString q.num
  else toString q.num ++ "/" ++ toString q.den

/-- Non-recursive test for the JSON `null` value. -/
def isNullV : JsValue → Bool
  | .null => true
  | _ => false

/-- JS `String(v)` conversion: booleans and strings as usual, objects to
`"[object Object]"`, arrays joined by `","` with null elements blank. -/
def jsToStr : JsValue → String
  | .null => "null"
  | .bool true => "true"
  | .bool false => "false"
  | .num q => ratDisplay q
  | .str s => s
  | .obj _ => "[object Object]"
  | .arr elems =>
      String.intercalate "," (elems.attach.map fun e =>
        if isNullV e.1 then "" else jsToStr e.1)
termination_by v => sizeOf v
decreasing_by
  have := List.sizeOf_lt_of_mem e.2
  simp only [JsValue.arr.sizeOf_spec]
  omega

/-- JS `String(raw ?? "")`: `undefined` and `null` collapse to the empty
string before conversion. -/
def jsCoalesceStr : Option JsValue → String
  | none => ""
  | some .null => ""
  | some v => jsToStr v

/-- Model of `parseParamKind` from `parsers.ts`: a finite number is truncated and
matched against the codes 0–6; anything else is stringified (`null` and
`undefined` to `""`), trimmed, lower-cased and matched against the synonym
table. (In the rational model every number is finite.) -/
def parseParamKind (raw : Option JsValue) : ActionParamKind :=
  match raw with
  | some (.num q) =>
      let t := jsTrunc q
      if t = 0 then .string
      else if t = 1 then .integer
      else if t = 2 then .number
      else if t = 3 then .boolean
      else if t = 4 then .null
      else if t = 5 then .object
      else if t = 6 then .array
      else .unknown
  | _ => kindOfLowered (jsToLower (jsTrim (jsCoalesceStr raw)))

/-- The parsed action parameter schema (`ActionParamSchema` in `types.ts`),
with recursive `items` and `properties`. -/
inductive ActionParamSchema where
  | mk (kind : ActionParamKind) (required : Bool) (description : Option String)
       (items : Option ActionParamSchema)
       (properties : List (String × ActionParamSchema))
       (defaultValue : Option JsValue)

/-- The `required` field of a parsed schema node. -/
def ActionParamSchema.required : ActionParamSchema → Bool
  | .mk _ r _ _ _ _ => r

/-- The `kind` field of a parsed schema node. -/
def ActionParamSchema.kind : ActionParamSchema → ActionParamKind
  | .mk k _ _ _ _ _ => k

theorem sizeOf_objGet_lt {fields : List (String × JsValue)} {key : String}
    {v : JsValue} (h : objGet fields key = some v) : sizeOf v < sizeOf fields := by
  induction fields with
  | nil => simp [objGet] at h
  | cons p rest ih =>
    obtain ⟨k, w⟩ := p
    simp only [objGet] at h
    split at h
    · cases h
      simp only [List.cons.sizeOf_spec, Prod.mk.sizeOf_spec]
      omega
    · have := ih h
      simp only [List.cons.sizeOf_spec]
      omega

theorem objGet_asRecordL_sizeOf_lt {raw : JsValue} {key : String} {v : JsValue}
    (h : objGet (asRecordL raw) key = some v) : sizeOf v < sizeOf raw := by
  cases raw <;> simp only [asRecordL, objGet] at h <;> try cases h
  case obj fields =>
    have := sizeOf_objGet_lt h
    simp only [JsValue.obj.sizeOf_spec]
    omega

theorem prop_sizeOf_lt {raw : JsValue} {key : String} {p : String × JsValue}
    (h : p ∈ asRecordO (objGet (asRecordL raw) key)) : sizeOf p.2 < sizeOf raw := by
  cases hv : objGet (asRecordL raw) key with
  | none => rw [hv] at h; simp [asRecordO] at h
  | some w =>
    rw [hv] at h
    have hw := objGet_asRecordL_sizeOf_lt hv
    cases w
    case obj fields =>
      simp only [asRecordO, asRecordL] at h
      have hm := List.sizeOf_lt_of_mem h
      obtain ⟨a, b⟩ := p
      simp only [Prod.mk.sizeOf_spec] at hm
      simp only [JsValue.obj.sizeOf_spec] at hw
      show sizeOf b < sizeOf raw
      omega
    all_goals simp [asRecordO, asRecordL] at h

/-- Model of `parseActionParamSchema` from `parsers.ts`: recursively validates a schema
node; `required` defaults to `true` when absent or null, otherwise it is true
only for the literal boolean `true`. -/
def parseActionParamSchema (raw : JsValue) : ActionParamSchema :=
  .mk
    (parseParamKind (objGet (asRecordL raw) "kind"))
    (match objGet (asRecordL raw) "required" with
      | none => true
      | some .null => true
      | some v => toBool (some v))
    (match objGet (asRecordL raw) "description" with
      | none => none
      | some .null => none
      | some v => some (jsToStr v))
    (match h : objGet (asRecordL raw) "items" with
      | none => none
      | some .null => none
      | some v => some (parseActionParamSchema v))
    ((asRecordO (objGet (asRecordL raw) "properties")).attach.map
      (fun p => (p.1.1, parseActionParamSchema p.1.2)))
    (objGet (asRecordL raw) "default")
termination_by sizeOf raw
decreasing_by
  · exact objGet_asRecordL_sizeOf_lt h
  · exact prop_sizeOf_lt p.2

/-- Error classification of `ApiClientError` (`errors.ts`). -/
inductive ApiErrorKind where
  | network | http | parse | contract
deriving DecidableEq, Repr

/-- Model of `ApiClientError` from `errors.ts` (kind, message, optional HTTP status and
body). -/
structure ApiClientError where
  kind : ApiErrorKind
  message : String
  status : Option ℤ
  body : Option String
deriving DecidableEq, Repr

/-- Model of `requireString` from `runtime.ts`: the named field must be present, a
string, and non-empty after trimming; otherwise a `contract` error naming
`path.key` is raised. -/
def requireString (data : List (String × JsValue)) (key path : String) :
    Except ApiClientError String :=
  match objGet data key with
  | some (.str s) =>
      if (jsTrim s).length = 0 then
        .error ⟨.contract,
          "Invalid API contract at " ++ path ++ "." ++ key ++ ": expected non-empty string.",
          none, none⟩
      else .ok s
  | _ =>
      .error ⟨.contract,
        "Invalid API contract at " ++ path ++ "." ++ key ++ ": expected non-empty string.",
        none, none⟩

/-- The error built in the catch branch of `parseJsonOrThrow` (`http.ts`): a
`parse` error whose message carries an HTML-detection hint chosen from the
first 800 characters of the whitespace-trimmed body. -/
def parseFailureError (text : String) : ApiClientError :=
  let trimmed := jsTrimStart text
  let snippet := jsTake 800 trimmed
  let looksLikeHtml := jsStartsWith snippet "<!DOCTYPE html" || jsStartsWith snippet "<html"
  let hint :=
    if looksLikeHtml then
      "It looks like HTML. \"Server URL\" likely points to a website, not ACI backend."
    else "Server URL may be incorrect, or backend returned non-JSON output."
  ⟨.parse, "Failed to parse API response as JSON. " ++ hint ++ " Raw response: " ++ snippet,
    none, none⟩

/-- Model of `parseJsonOrThrow` from `http.ts`. The JS builtin `JSON.parse` is external
to the repository and is modelled as an oracle argument: `some v` is a
successful decode, `none` means the builtin threw (the body is not valid
JSON), in which case the catch branch classifies the failure. -/
def parseJsonOrThrow (parsed : Option JsValue) (text : String) :
    Except ApiClientError JsValue :=
  match parsed with
  | some v => .ok v
  | none => .error (parseFailureError text)

/-- Transcript entry roles (`types.ts`). -/
inductive TranscriptRole where
  | user | assistant | system | simulator
deriving DecidableEq, Repr

/-- A transcript entry (`nowEntry` in `App.tsx`); the wall-clock timestamp is
outside the model. -/
structure TranscriptEntry where
  role : TranscriptRole
  content : String
deriving DecidableEq, Repr

/-- A parsed timeline item (`ContextTimelineItem` in `types.ts`). -/
structure ContextTimelineItem where
  id : String
  type : String
  seq : ℤ
  isObsolete : Bool
  rawContent : String
  estimatedTokens : ℤ
deriving DecidableEq, Repr

/-- Separator characters stripped by the `[\s_-]` regex in
`isAssistantTimelineType`. -/
def isSepChar (c : Char) : Bool := jsWhite c || c == '_' || c == '-'

/-- Model of `isAssistantTimelineType` from `App.tsx`: trim, lower-case, strip
whitespace/underscore/hyphen separators, then test for the prefix
`assistant`. -/
def isAssistantTimelineType (ty : String) : Bool :=
  let normalized : String := ⟨(jsToLower (jsTrim ty)).toList.filter (fun c => !isSepChar c)⟩
  jsStartsWith normalized "assistant"

/-- Insert an item into a list sorted ascending by `seq`, before the first
strictly larger key (stable). -/
def insertBySeq (x : ContextTimelineItem) :
    List ContextTimelineItem → List ContextTimelineItem
  | [] => [x]
  | y :: ys => if x.seq ≤ y.seq then x :: y :: ys else y :: insertBySeq x ys

/-- Stable ascending sort by `seq`: the model of the JS
`sort((l, r) => l.seq - r.seq)` call (JS `Array.prototype.sort` is stable, so
any stable ascending-by-`seq` sort computes the same list). -/
def sortBySeq (l : List ContextTimelineItem) : List ContextTimelineItem :=
  l.foldr insertBySeq []

/-- Model of `initAssistantTracking` from `App.tsx`, reduced to its state effect: the
seen-set is reset to the sequence numbers of the assistant-tagged items of the
fetched timeline. -/
def initSeen (timeline : List ContextTimelineItem) : Finset ℤ :=
  timeline.foldl
    (fun s it => if isAssistantTimelineType it.type then insert it.seq s else s) ∅

/-- Model of `pullAssistantDeltas` from `App.tsx`, as a pure function of the current
seen-set and the fetched timeline snapshot: returns the assistant-tagged items
not yet seen, sorted ascending by `seq`, together with the updated seen-set
(unchanged when nothing is new). The transcript append it performs is modelled
in `deltaStep`. -/
def pullAssistantDeltas (seen : Finset ℤ) (timeline : List ContextTimelineItem) :
    List ContextTimelineItem × Finset ℤ :=
  let items := sortBySeq (timeline.filter fun it =>
    isAssistantTimelineType it.type && !(decide (it.seq ∈ seen)))
  if items.isEmpty then ([], seen)
  else (items, items.foldl (fun s it => insert it.seq s) seen)

/-- Model of `ActionInfo` from `types.ts`. -/
structure ActionInfo where
  type : Option String
  appName : Option String
  windowId : Option String
  actionId : Option String
deriving DecidableEq, Repr

/-- Model of `ActionResultInfo` from `types.ts`. -/
structure ActionResultInfo where
  success : Bool
  message : Option String
  summary : Option String
deriving DecidableEq, Repr

/-- Model of `InteractionStepInfo` from `types.ts`. -/
structure InteractionStepInfo where
  callId : String
  windowId : String
  actionId : String
  resolvedMode : String
  success : Bool
  message : Option String
  summary : Option String
  taskId : Option String
  turn : ℤ
  index : ℤ
deriving DecidableEq, Repr

/-- Model of `TokenUsage` from `types.ts`. -/
structure TokenUsage where
  promptTokens : ℤ
  completionTokens : ℤ
  totalTokens : ℤ
deriving DecidableEq, Repr

/-- Model of `InteractionResponse` from `types.ts`. -/
structure InteractionResponse where
  success : Bool
  error : Option String
  response : Option String
  action : Option ActionInfo
  actionResult : Option ActionResultInfo
  steps : Option (List InteractionStepInfo)
  usage : Option TokenUsage
deriving DecidableEq, Repr

/-- JS template interpolation of a nullable string: `null` prints as
`"null"`. -/
def tmplStr (o : Option String) : String := o.getD "null"

/-- JS boolean interpolation. -/
def boolStr (b : Bool) : String := if b then "true" else "false"

/-- The `response` line segment of `applyInteractionResult`: pushed only when
not skipped and non-empty. -/
def respSeg (r : InteractionResponse) (skipResponse : Bool) : List String :=
  if !skipResponse && (r.response.getD "").length > 0 then [r.response.getD ""] else []

/-- The `[action]` line segment of `applyInteractionResult`. -/
def actionSeg (r : InteractionResponse) : List String :=
  match r.action with
  | none => []
  | some a =>
      ["[action] type=" ++ tmplStr a.type ++ ", app=" ++ tmplStr a.appName ++
        ", window=" ++ tmplStr a.windowId ++ ", actionId=" ++ tmplStr a.actionId]

/-- The `[actionResult]` line segment of `applyInteractionResult`. -/
def actionResultSeg (r : InteractionResponse) : List String :=
  match r.actionResult with
  | none => []
  | some ar =>
      ["[actionResult] success=" ++ boolStr ar.success ++ ", message=" ++
        ar.message.getD "" ++ ", summary=" ++ ar.summary.getD ""]

/-- The lines pushed for one step (main line plus optional message/summary
lines; JS truthiness makes the empty string behave like absence). -/
def stepLines (step : InteractionStepInfo) : List String :=
  ["[step] call=" ++ step.callId ++ ", turn=" ++ toString step.turn ++ ", idx=" ++
    toString step.index ++ ", mode=" ++ step.resolvedMode ++ ", target=" ++
    step.windowId ++ "." ++ step.actionId ++ ", success=" ++ boolStr step.success ++
    ", task=" ++ step.taskId.getD ""] ++
  (match step.message with
   | some m => if m.length > 0 then ["  message: " ++ m] else []
   | none => []) ++
  (match step.summary with
   | some m => if m.length > 0 then ["  summary: " ++ m] else []
   | none => [])

/-- The `[step]` line segment of `applyInteractionResult` (only when the step
list is present and non-empty). -/
def stepsSeg (r : InteractionResponse) : List String :=
  match r.steps with
  | none => []
  | some steps => if steps.length > 0 then steps.flatMap stepLines else []

/-- The `[usage]` line segment of `applyInteractionResult`. -/
def usageSeg (r : InteractionResponse) : List String :=
  match r.usage with
  | none => []
  | some u =>
      ["[usage] prompt=" ++ toString u.promptTokens ++ ", completion=" ++
        toString u.completionTokens ++ ", total=" ++ toString u.totalTokens]

/-- The `lines` array built by `applyInteractionResult` on the success path,
in push order. -/
def renderLines (r : InteractionResponse) (skipResponse : Bool) : List String :=
  respSeg r skipResponse ++ actionSeg r ++ actionResultSeg r ++ stepsSeg r ++ usageSeg r

/-- Model of `applyInteractionResult` from `App.tsx` as a transcript transformer: a
failed result appends one system error entry; a successful result appends one
assistant summary entry joining the rendered lines, or nothing at all when no
line was rendered. -/
def applyInteractionResult (r : InteractionResponse) (skipResponse : Bool)
    (entries : List TranscriptEntry) : List TranscriptEntry :=
  if !r.success then
    entries ++ [⟨.system, "Request failed: " ++ r.error.getD "unknown"⟩]
  else
    let lines := renderLines r skipResponse
    if lines.isEmpty then entries
    else entries ++ [⟨.assistant, String.intercalate "\n" lines⟩]

/-- The orchestrator state owned by one `sendComposer` LLM run: the seen-set,
the transcript, the flag recording whether any live delta was observed
(`hasLiveAssistantOutput`), and — as a history variable for stating the
dedup guarantee — the list of assistant items appended by delta pulls. -/
structure RunState where
  seen : Finset ℤ
  entries : List TranscriptEntry
  log : List ContextTimelineItem
  hasLive : Bool

/-- One atomic delta pull over a fetched timeline snapshot: precisely the
suspension-free tail of `pullAssistantDeltas` plus the
`hasLiveAssistantOutput` update of its callers in `sendComposer` (the poll
tick and the final fetch run this same code). -/
def deltaStep (s : RunState) (timeline : List ContextTimelineItem) : RunState :=
  let pulled := pullAssistantDeltas s.seen timeline
  { seen := pulled.2
    entries := s.entries ++ pulled.1.map (fun it => ⟨.assistant, it.rawContent⟩)
    log := s.log ++ pulled.1
    hasLive := s.hasLive || !pulled.1.isEmpty }

/-- A sequence of delta pulls (poll ticks and the final fetch, in whatever
order the single-threaded scheduler ran their continuations), each over its
own timeline snapshot. -/
def runDeltas (s : RunState) (fetches : List (List ContextTimelineItem)) : RunState :=
  fetches.foldl deltaStep s

/-- The run state right after `sendComposer` appended the user entry and
`initAssistantTracking` initialized the seen-set from the timeline snapshot
`tl0`. -/
def initialRunState (entries0 : List TranscriptEntry) (content : String)
    (tl0 : List ContextTimelineItem) : RunState :=
  { seen := initSeen tl0
    entries := entries0 ++ [⟨.user, content⟩]
    log := []
    hasLive := false }

/-- The LLM-mode success path of `sendComposer`: initialize tracking on
`tl0`, run the poll deltas, run the final delta fetch, then apply the
interaction result with `skipResponse := hasLiveAssistantOutput`. -/
def sendComposerLLM (entries0 : List TranscriptEntry) (content : String)
    (tl0 : List ContextTimelineItem) (pollFetches : List (List ContextTimelineItem))
    (finalFetch : List ContextTimelineItem) (result : InteractionResponse) : RunState :=
  let s2 := deltaStep (runDeltas (initialRunState entries0 content tl0) pollFetches) finalFetch
  { s2 with entries := applyInteractionResult result s2.hasLive s2.entries }

/-! ### Helper lemmas -/

theorem charsLeadWith_iff {ps cs : List Char} : charsLeadWith ps cs = true ↔ ps <+: cs := by
  induction ps generalizing cs with
  | nil => simp [charsLeadWith]
  | cons p pt ih =>
    cases cs with
    | nil => simp [charsLeadWith]
    | cons c ct =>
      simp only [charsLeadWith, Bool.and_eq_true, beq_iff_eq, ih,
        List.cons_prefix_cons]

theorem charsLeadWith_take {ps cs : List Char} {n : ℕ} (h : ps.length ≤ n) :
    charsLeadWith ps (cs.take n) = charsLeadWith ps cs := by
  rw [Bool.eq_iff_iff, charsLeadWith_iff, charsLeadWith_iff, List.prefix_take_iff]
  exact and_iff_left h

theorem jsStartsWith_take {s pat : String} {n : ℕ} (h : pat.toList.length ≤ n) :
    jsStartsWith (jsTake n s) pat = jsStartsWith s pat := by
  unfold jsStartsWith jsTake
  exact charsLeadWith_take h

theorem insertBySeq_perm (x : ContextTimelineItem) (l : List ContextTimelineItem) :
    (insertBySeq x l).Perm (x :: l) := by
  induction l with
  | nil => exact List.Perm.refl _
  | cons y ys ih =>
    unfold insertBySeq
    split
    · exact List.Perm.refl _
    · exact (ih.cons y).trans (List.Perm.swap x y ys)

theorem sortBySeq_perm (l : List ContextTimelineItem) : (sortBySeq l).Perm l := by
  induction l with
  | nil => exact List.Perm.refl _
  | cons x xs ih =>
    show (insertBySeq x (sortBySeq xs)).Perm (x :: xs)
    exact (insertBySeq_perm x (sortBySeq xs)).trans (ih.cons x)

theorem insertBySeq_sorted (x : ContextTimelineItem) {l : List ContextTimelineItem}
    (h : l.Pairwise (fun a b => a.seq ≤ b.seq)) :
    (insertBySeq x l).Pairwise (fun a b => a.seq ≤ b.seq) := by
  induction l with
  | nil => simp [insertBySeq]
  | cons y ys ih =>
    rcases List.pairwise_cons.mp h with ⟨hy, hys⟩
    unfold insertBySeq
    split
    case isTrue hxy =>
      refine List.pairwise_cons.mpr ⟨?_, h⟩
      intro z hz
      rcases List.mem_cons.mp hz with rfl | hz
      · exact hxy
      · exact le_trans hxy (hy z hz)
    case isFalse hxy =>
      refine List.pairwise_cons.mpr ⟨?_, ih hys⟩
      intro z hz
      have hz' := (insertBySeq_perm x ys).mem_iff.mp hz
      rcases List.mem_cons.mp hz' with rfl | hz'
      · exact le_of_lt (lt_of_not_le hxy)
      · exact hy z hz'

theorem sortBySeq_sorted (l : List ContextTimelineItem) :
    (sortBySeq l).Pairwise (fun a b => a.seq ≤ b.seq) := by
  induction l with
  | nil => simp [sortBySeq]
  | cons x xs ih => exact insertBySeq_sorted x ih

theorem mem_foldl_insert_if (tl : List ContextTimelineItem) (s0 : Finset ℤ) (n : ℤ) :
    n ∈ tl.foldl
        (fun s it => if isAssistantTimelineType it.type then insert it.seq s else s) s0
      ↔ n ∈ s0 ∨ ∃ it ∈ tl, isAssistantTimelineType it.type ∧ it.seq = n := by
  induction tl generalizing s0 with
  | nil => simp
  | cons x xs ih =>
    simp only [List.foldl_cons]
    rw [ih]
    split
    case isTrue hx =>
      constructor
      · rintro (h | ⟨it, hit, hc, rfl⟩)
        · rcases Finset.mem_insert.mp h with h | h
          · exact Or.inr ⟨x, List.mem_cons_self x xs, hx, h.symm⟩
          · exact Or.inl h
        · exact Or.inr ⟨it, List.mem_cons_of_mem x hit, hc, rfl⟩
      · rintro (h | ⟨it, hit, hc, rfl⟩)
        · exact Or.inl (Finset.mem_insert_of_mem h)
        · rcases List.mem_cons.mp hit with rfl | hit
          · exact Or.inl (Finset.mem_insert_self it.seq s0)
          · exact Or.inr ⟨it, hit, hc, rfl⟩
    case isFalse hx => simp [hx]

theorem mem_initSeen (tl : List ContextTimelineItem) (n : ℤ) :
    n ∈ initSeen tl ↔ ∃ it ∈ tl, isAssistantTimelineType it.type ∧ it.seq = n := by
  unfold initSeen
  rw [mem_foldl_insert_if]
  simp

theorem mem_foldl_insert (l : List ContextTimelineItem) (s0 : Finset ℤ) (n : ℤ) :
    n ∈ l.foldl (fun s it => insert it.seq s) s0 ↔ n ∈ s0 ∨ ∃ it ∈ l, it.seq = n := by
  induction l generalizing s0 with
  | nil => simp
  | cons x xs ih =>
    simp only [List.foldl_cons]
    rw [ih]
    constructor
    · rintro (h | ⟨it, hit, rfl⟩)
      · rcases Finset.mem_insert.mp h with h | h
        · exact Or.inr ⟨x, List.mem_cons_self x xs, h.symm⟩
        · exact Or.inl h
      · exact Or.inr ⟨it, List.mem_cons_of_mem x hit, rfl⟩
    · rintro (h | ⟨it, hit, rfl⟩)
      · exact Or.inl (Finset.mem_insert_of_mem h)
      · rcases List.mem_cons.mp hit with rfl | hit
        · exact Or.inl (Finset.mem_insert_self it.seq s0)
        · exact Or.inr ⟨it, hit, rfl⟩

theorem pull_fst (seen : Finset ℤ) (tl : List ContextTimelineItem) :
    (pullAssistantDeltas seen tl).1 =
      sortBySeq (tl.filter fun it =>
        isAssistantTimelineType it.type && !(decide (it.seq ∈ seen))) := by
  unfold pullAssistantDeltas
  dsimp only
  split
  case isTrue h => exact (List.isEmpty_iff.mp h).symm
  case isFalse h => rfl

theorem pull_snd (seen : Finset ℤ) (tl : List ContextTimelineItem) :
    (pullAssistantDeltas seen tl).2 =
      (pullAssistantDeltas seen tl).1.foldl (fun s it => insert it.seq s) seen := by
  rw [pull_fst]
  unfold pullAssistantDeltas
  dsimp only
  split
  case isTrue h => rw [List.isEmpty_iff.mp h]; rfl
  case isFalse h => rfl

theorem mem_pull_fst (seen : Finset ℤ) (tl : List ContextTimelineItem)
    (it : ContextTimelineItem) :
    it ∈ (pullAssistantDeltas seen tl).1 ↔
      it ∈ tl ∧ isAssistantTimelineType it.type = true ∧ it.seq ∉ seen := by
  rw [pull_fst, (sortBySeq_perm _).mem_iff, List.mem_filter]
  simp [and_assoc]

theorem mem_pull_snd (seen : Finset ℤ) (tl : List ContextTimelineItem) (n : ℤ) :
    n ∈ (pullAssistantDeltas seen tl).2 ↔
      n ∈ seen ∨ ∃ it ∈ (pullAssistantDeltas seen tl).1, it.seq = n := by
  rw [pull_snd, mem_foldl_insert]

theorem pull_fst_sorted (seen : Finset ℤ) (tl : List ContextTimelineItem) :
    (pullAssistantDeltas seen tl).1.Pairwise (fun a b => a.seq ≤ b.seq) := by
  rw [pull_fst]; exact sortBySeq_sorted _

theorem pull_fst_perm (seen : Finset ℤ) (tl : List ContextTimelineItem) :
    (pullAssistantDeltas seen tl).1.Perm
      (tl.filter fun it => isAssistantTimelineType it.type && !(decide (it.seq ∈ seen))) := by
  rw [pull_fst]; exact sortBySeq_perm _

theorem deltaStep_log (s : RunState) (tl : List ContextTimelineItem) :
    (deltaStep s tl).log = s.log ++ (pullAssistantDeltas s.seen tl).1 := rfl

theorem deltaStep_seen (s : RunState) (tl : List ContextTimelineItem) :
    (deltaStep s tl).seen = (pullAssistantDeltas s.seen tl).2 := rfl

theorem deltaStep_hasLive (s : RunState) (tl : List ContextTimelineItem) :
    (deltaStep s tl).hasLive = (s.hasLive || !(pullAssistantDeltas s.seen tl).1.isEmpty) := rfl

theorem deltaStep_seq_inv (s : RunState) (tl : List ContextTimelineItem)
    (h1 : (s.log.map (fun it => it.seq)).Nodup)
    (h2 : ∀ n ∈ s.log.map (fun it => it.seq), n ∈ s.seen)
    (htl : (tl.map (fun it => it.seq)).Nodup) :
    ((deltaStep s tl).log.map (fun it => it.seq)).Nodup ∧
      ∀ n ∈ (deltaStep s tl).log.map (fun it => it.seq), n ∈ (deltaStep s tl).seen := by
  have hitems : ((pullAssistantDeltas s.seen tl).1.map (fun it => it.seq)).Nodup := by
    have hperm := (pull_fst_perm s.seen tl).map (fun it => it.seq)
    have hsub := (List.filter_sublist
      (p := fun it => isAssistantTimelineType it.type && !(decide (it.seq ∈ s.seen))) tl).map
      (fun it => it.seq)
    exact hperm.nodup_iff.mpr (htl.sublist hsub)
  have hdisj : ∀ n ∈ s.log.map (fun it => it.seq),
      n ∉ (pullAssistantDeltas s.seen tl).1.map (fun it => it.seq) := by
    intro n hn hmem
    rcases List.mem_map.mp hmem with ⟨it, hit, rfl⟩
    exact ((mem_pull_fst s.seen tl it).mp hit).2.2 (h2 _ hn)
  constructor
  · rw [deltaStep_log, List.map_append]
    exact h1.append hitems hdisj
  · intro n hn
    rw [deltaStep_log, List.map_append, List.mem_append] at hn
    rw [deltaStep_seen, mem_pull_snd]
    rcases hn with hn | hn
    · exact Or.inl (h2 n hn)
    · rcases List.mem_map.mp hn with ⟨it, hit, rfl⟩
      exact Or.inr ⟨it, hit, rfl⟩

theorem runDeltas_seq_inv (fetches : List (List ContextTimelineItem)) :
    ∀ s : RunState, (s.log.map (fun it => it.seq)).Nodup →
      (∀ n ∈ s.log.map (fun it => it.seq), n ∈ s.seen) →
      (∀ f ∈ fetches, (f.map (fun it => it.seq)).Nodup) →
      ((runDeltas s fetches).log.map (fun it => it.seq)).Nodup ∧
        ∀ n ∈ (runDeltas s fetches).log.map (fun it => it.seq),
          n ∈ (runDeltas s fetches).seen := by
  induction fetches with
  | nil => exact fun s h1 h2 _ => ⟨h1, h2⟩
  | cons f fs ih =>
    intro s h1 h2 hfs
    have hstep := deltaStep_seq_inv s f h1 h2 (hfs f (List.mem_cons_self f fs))
    exact ih (deltaStep s f) hstep.1 hstep.2
      (fun g hg => hfs g (List.mem_cons_of_mem f hg))

theorem deltaStep_hasLive_iff (s : RunState) (tl : List ContextTimelineItem)
    (h : s.hasLive = true ↔ s.log ≠ []) :
    (deltaStep s tl).hasLive = true ↔ (deltaStep s tl).log ≠ [] := by
  have hp : (!(pullAssistantDeltas s.seen tl).1.isEmpty) = true ↔
      (pullAssistantDeltas s.seen tl).1 ≠ [] := by
    simp [List.isEmpty_iff]
  rw [deltaStep_hasLive, deltaStep_log, Bool.or_eq_true, h, hp, ne_eq, ne_eq, ne_eq,
    List.append_eq_nil]
  tauto

theorem runDeltas_hasLive_iff (fetches : List (List ContextTimelineItem)) :
    ∀ s : RunState, (s.hasLive = true ↔ s.log ≠ []) →
      ((runDeltas s fetches).hasLive = true ↔ (runDeltas s fetches).log ≠ []) := by
  induction fetches with
  | nil => exact fun s h => h
  | cons f fs ih => exact fun s h => ih (deltaStep s f) (deltaStep_hasLive_iff s f h)

/-! ### Claim theorems -/

/-- C1: within one `sendComposer` LLM run, every assistant-tagged timeline
sequence number is appended to the transcript at most once, for every
interleaving of poll ticks and the final delta fetch (modelled as an
arbitrary list of atomic delta pulls over arbitrary timeline snapshots),
because every pull consults and updates the same seen-set; the per-snapshot
hypothesis is the timeline invariant that sequence numbers are unique within
one session+agent timeline. -/
theorem orchestrator_appends_each_seq_at_most_once
    (entries0 : List TranscriptEntry) (content : String)
    (tl0 : List ContextTimelineItem) (fetches : List (List ContextTimelineItem))
    (huniq : ∀ f ∈ fetches, (f.map (fun it => it.seq)).Nodup) :
    (((runDeltas (initialRunState entries0 content tl0) fetches).log).map
      (fun it => it.seq)).Nodup := by
  have hinit1 : ((initialRunState entries0 content tl0).log.map
      (fun it => it.seq)).Nodup := by
    simp [initialRunState]
  have hinit2 : ∀ n ∈ (initialRunState entries0 content tl0).log.map
      (fun it => it.seq), n ∈ (initialRunState entries0 content tl0).seen := by
    simp [initialRunState]
  exact (runDeltas_seq_inv fetches (initialRunState entries0 content tl0)
    hinit1 hinit2 huniq).1

theorem orchestrator_appends_each_seq_at_most_once_witness :
    (((runDeltas (initialRunState [] "hello"
          [⟨"h", "assistant_text", 3, false, "old", 0⟩])
        [[⟨"h", "assistant_text", 3, false, "old", 0⟩,
          ⟨"a", "assistant_text", 7, false, "hi", 0⟩],
         [⟨"a", "assistant_text", 7, false, "hi", 0⟩,
          ⟨"b", "assistantText", 8, true, "more", 1⟩]]).log).map
      (fun it => it.seq)).Nodup :=
  orchestrator_appends_each_seq_at_most_once [] "hello"
    [⟨"h", "assistant_text", 3, false, "old", 0⟩]
    [[⟨"h", "assistant_text", 3, false, "old", 0⟩,
      ⟨"a", "assistant_text", 7, false, "hi", 0⟩],
     [⟨"a", "assistant_text", 7, false, "hi", 0⟩,
      ⟨"b", "assistantText", 8, true, "more", 1⟩]] (by decide)

/-- C2: `pullAssistantDeltas` returns exactly the assistant-tagged items of
the snapshot whose sequence number is absent from the seen-set, sorted
ascending by sequence number, and the updated seen-set holds exactly the old
members plus the returned sequence numbers; in particular after `initSeen` on
`A`, a pull on the superset `A ++ B` returns exactly the assistant items of
`B` (given the timeline invariant that the new items carry fresh sequence
numbers), sorted ascending. -/
theorem delta_returns_unseen_sorted_and_marks_seen
    (seen : Finset ℤ) (tl A B : List ContextTimelineItem)
    (hdisj : ∀ b ∈ B, isAssistantTimelineType b.type = true →
      ∀ a ∈ A, isAssistantTimelineType a.type = true → b.seq ≠ a.seq) :
    (pullAssistantDeltas seen tl).1.Perm
      (tl.filter fun it => isAssistantTimelineType it.type && !(decide (it.seq ∈ seen)))
    ∧ (pullAssistantDeltas seen tl).1.Pairwise (fun l r => l.seq ≤ r.seq)
    ∧ (∀ n : ℤ, n ∈ (pullAssistantDeltas seen tl).2 ↔
        n ∈ seen ∨ ∃ it ∈ (pullAssistantDeltas seen tl).1, it.seq = n)
    ∧ (pullAssistantDeltas (initSeen A) (A ++ B)).1.Perm
        (B.filter fun it => isAssistantTimelineType it.type)
    ∧ (pullAssistantDeltas (initSeen A) (A ++ B)).1.Pairwise
        (fun l r => l.seq ≤ r.seq) := by
  refine ⟨pull_fst_perm seen tl, pull_fst_sorted seen tl, mem_pull_snd seen tl, ?_,
    pull_fst_sorted _ _⟩
  have hA : (A.filter fun it =>
      isAssistantTimelineType it.type && !(decide (it.seq ∈ initSeen A))) = [] := by
    rw [List.filter_eq_nil_iff]
    intro a ha
    by_cases hassist : isAssistantTimelineType a.type = true
    · have hmem : a.seq ∈ initSeen A := (mem_initSeen A a.seq).mpr ⟨a, ha, hassist, rfl⟩
      simp [hmem]
    · simp [hassist]
  have hB : (B.filter fun it =>
        isAssistantTimelineType it.type && !(decide (it.seq ∈ initSeen A)))
      = B.filter fun it => isAssistantTimelineType it.type := by
    apply List.filter_congr
    intro b hb
    by_cases hassist : isAssistantTimelineType b.type = true
    · have hmem : b.seq ∉ initSeen A := by
        intro hmem
        rcases (mem_initSeen A b.seq).mp hmem with ⟨a, ha, haassist, haseq⟩
        exact hdisj b hb hassist a ha haassist haseq.symm
      simp [hassist, hmem]
    · simp [hassist]
  have hperm := pull_fst_perm (initSeen A) (A ++ B)
  rw [List.filter_append, hA, hB, List.nil_append] at hperm
  exact hperm

theorem delta_returns_unseen_sorted_and_marks_seen_witness :
    (pullAssistantDeltas (initSeen [⟨"h", "assistant_text", 3, false, "old", 0⟩])
        ([⟨"h", "assistant_text", 3, false, "old", 0⟩] ++
          [⟨"a", "assistant_text", 7, false, "hi", 0⟩,
           ⟨"u", "user_text", 9, false, "q", 0⟩])).1.Perm
      ([⟨"a", "assistant_text", 7, false, "hi", 0⟩,
        ⟨"u", "user_text", 9, false, "q", 0⟩].filter fun it =>
          isAssistantTimelineType it.type) :=
  (delta_returns_unseen_sorted_and_marks_seen ∅ []
    [⟨"h", "assistant_text", 3, false, "old", 0⟩]
    [⟨"a", "assistant_text", 7, false, "hi", 0⟩,
     ⟨"u", "user_text", 9, false, "q", 0⟩] (by decide)).2.2.2.1

/-- C4: the delta operation is idempotent under unchanged input: a second
pull over the same timeline snapshot returns nothing, and a pull immediately
after `initSeen` on the same snapshot returns nothing. -/
theorem delta_idempotent_under_unchanged_timeline :
    (∀ (seen : Finset ℤ) (tl : List ContextTimelineItem),
       (pullAssistantDeltas (pullAssistantDeltas seen tl).2 tl).1 = [])
    ∧ ∀ tl : List ContextTimelineItem,
        (pullAssistantDeltas (initSeen tl) tl).1 = [] := by
  constructor
  · intro seen tl
    rw [pull_fst]
    have hfil : (tl.filter fun it => isAssistantTimelineType it.type &&
        !(decide (it.seq ∈ (pullAssistantDeltas seen tl).2))) = [] := by
      rw [List.filter_eq_nil_iff]
      intro it hit
      by_cases hassist : isAssistantTimelineType it.type = true
      · have hmem : it.seq ∈ (pullAssistantDeltas seen tl).2 := by
          rw [mem_pull_snd]
          by_cases hseen : it.seq ∈ seen
          · exact Or.inl hseen
          · exact Or.inr ⟨it, (mem_pull_fst seen tl it).mpr ⟨hit, hassist, hseen⟩, rfl⟩
        simp [hmem]
      · simp [hassist]
    rw [hfil]
    rfl
  · intro tl
    rw [pull_fst]
    have hfil : (tl.filter fun it => isAssistantTimelineType it.type &&
        !(decide (it.seq ∈ initSeen tl))) = [] := by
      rw [List.filter_eq_nil_iff]
      intro it hit
      by_cases hassist : isAssistantTimelineType it.type = true
      · have hmem : it.seq ∈ initSeen tl := (mem_initSeen tl it.seq).mpr ⟨it, hit, hassist, rfl⟩
        simp [hmem]
      · simp [hassist]
    rw [hfil]
    rfl

/-- C3: on a successful primary request, `sendComposer` renders the summary
with `skipResponse := hasLiveAssistantOutput`; that flag is set exactly when
some delta pull (poll tick or final fetch) appended items, a skipped render
contains no response line but still all action/actionResult/step/usage lines,
and an unskipped render is the response segment followed by those same
lines. -/
theorem success_response_suppressed_iff_live_delta
    (entries0 : List TranscriptEntry) (content : String)
    (tl0 : List ContextTimelineItem) (polls : List (List ContextTimelineItem))
    (finalF : List ContextTimelineItem) (r : InteractionResponse)
    (hs : r.success = true) :
    ((sendComposerLLM entries0 content tl0 polls finalF r).entries =
      if (renderLines r
          (deltaStep (runDeltas (initialRunState entries0 content tl0) polls)
            finalF).hasLive).isEmpty
      then (deltaStep (runDeltas (initialRunState entries0 content tl0) polls)
          finalF).entries
      else (deltaStep (runDeltas (initialRunState entries0 content tl0) polls)
          finalF).entries ++
        [⟨.assistant, String.intercalate "\n" (renderLines r
          (deltaStep (runDeltas (initialRunState entries0 content tl0) polls)
            finalF).hasLive)⟩])
    ∧ ((deltaStep (runDeltas (initialRunState entries0 content tl0) polls)
          finalF).hasLive = true ↔
        (deltaStep (runDeltas (initialRunState entries0 content tl0) polls)
          finalF).log ≠ [])
    ∧ respSeg r true = []
    ∧ (∀ skip : Bool, renderLines r skip =
        respSeg r skip ++ actionSeg r ++ actionResultSeg r ++ stepsSeg r ++ usageSeg r)
    ∧ ((deltaStep (runDeltas (initialRunState entries0 content tl0) polls)
          finalF).hasLive = true →
        renderLines r true =
          actionSeg r ++ actionResultSeg r ++ stepsSeg r ++ usageSeg r) := by
  refine ⟨?_, ?_, rfl, fun _ => rfl, ?_⟩
  · simp [sendComposerLLM, applyInteractionResult, hs]
  · exact deltaStep_hasLive_iff _ finalF
      (runDeltas_hasLive_iff polls (initialRunState entries0 content tl0)
        (by simp [initialRunState]))
  · intro _
    simp [renderLines, respSeg]

theorem success_response_suppressed_iff_live_delta_witness :
    renderLines ⟨true, none, some "hi", none, none, none, none⟩ true =
      actionSeg ⟨true, none, some "hi", none, none, none, none⟩ ++
      actionResultSeg ⟨true, none, some "hi", none, none, none, none⟩ ++
      stepsSeg ⟨true, none, some "hi", none, none, none, none⟩ ++
      usageSeg ⟨true, none, some "hi", none, none, none, none⟩ :=
  (success_response_suppressed_iff_live_delta [] "q" []
    [[⟨"a", "assistant_text", 7, false, "hi", 0⟩]] []
    ⟨true, none, some "hi", none, none, none, none⟩ rfl).2.2.2.2 (by decide)

/-- C10 (implicit): a successful interaction result whose rendered line list
is empty — response suppressed or empty, and no action, actionResult, steps
or usage — appends no transcript entry at all: the transcript is returned
unchanged. -/
theorem empty_success_summary_appends_nothing
    (r : InteractionResponse) (skip : Bool) (entries : List TranscriptEntry)
    (hs : r.success = true)
    (hresp : skip = true ∨ r.response = none ∨ r.response = some "")
    (haction : r.action = none) (hares : r.actionResult = none)
    (hsteps : r.steps = none) (husage : r.usage = none) :
    applyInteractionResult r skip entries = entries := by
  have h1 : respSeg r skip = [] := by
    rcases hresp with rfl | h | h
    · rfl
    · simp [respSeg, h]
    · simp [respSeg, h]
  have hlines : renderLines r skip = [] := by
    simp [renderLines, h1, actionSeg, haction, actionResultSeg, hares, stepsSeg,
      hsteps, usageSeg, husage]
  simp [applyInteractionResult, hs, hlines]

theorem empty_success_summary_appends_nothing_witness :
    applyInteractionResult ⟨true, none, none, none, none, none, none⟩ false
      [⟨.user, "x"⟩] = [⟨.user, "x"⟩] :=
  empty_success_summary_appends_nothing ⟨true, none, none, none, none, none, none⟩
    false [⟨.user, "x"⟩] rfl (Or.inr (Or.inl rfl)) rfl rfl rfl rfl

theorem parseParamKind_num (q : ℚ) :
    parseParamKind (some (.num q)) =
      (if jsTrunc q = 0 then .string
       else if jsTrunc q = 1 then .integer
       else if jsTrunc q = 2 then .number
       else if jsTrunc q = 3 then .boolean
       else if jsTrunc q = 4 then .null
       else if jsTrunc q = 5 then .object
       else if jsTrunc q = 6 then .array
       else .unknown) := rfl

theorem parseParamKind_str (s : String) :
    parseParamKind (some (.str s)) = kindOfLowered (jsToLower (jsTrim s)) := by
  simp [parseParamKind, jsCoalesceStr, jsToStr]

/-- C5 counterexample: the fractional number 3/2 is neither one of the
integer codes 0–6 nor a string synonym, yet it decodes to `integer` (the
code truncates toward zero first), not to `unknown`. -/
theorem parseParamKind_fractional_not_unknown :
    parseParamKind (some (JsValue.num (mkRat 3 2))) = ActionParamKind.integer ∧
      ActionParamKind.integer ≠ ActionParamKind.unknown := by
  exact ⟨by decide, by decide⟩

/-- C5 (amended): finite numbers are truncated toward zero and matched
against the codes 0=string … 6=array (so 3/2 also decodes to `integer` and
any number truncating outside 0–6 decodes to `unknown`); strings are trimmed
and lower-cased and matched against the synonym table (`int`→integer,
`float`/`double`→number, `bool`→boolean), any other string decoding to
`unknown`; missing values, `null` and booleans decode to `unknown`. -/
theorem parseParamKind_amended_spec :
    (∀ q : ℚ, (jsTrunc q < 0 ∨ 6 < jsTrunc q) →
      parseParamKind (some (.num q)) = .unknown)
    ∧ parseParamKind (some (.num 0)) = .string
    ∧ parseParamKind (some (.num 1)) = .integer
    ∧ parseParamKind (some (.num 2)) = .number
    ∧ parseParamKind (some (.num 3)) = .boolean
    ∧ parseParamKind (some (.num 4)) = .null
    ∧ parseParamKind (some (.num 5)) = .object
    ∧ parseParamKind (some (.num 6)) = .array
    ∧ parseParamKind (some (.num 7)) = .unknown
    ∧ parseParamKind (some (.num (-1))) = .unknown
    ∧ parseParamKind (some (.str "integer")) = .integer
    ∧ parseParamKind (some (.str "int")) = .integer
    ∧ parseParamKind (some (.str " Integer ")) = .integer
    ∧ parseParamKind (some (.str "INT")) = .integer
    ∧ parseParamKind (some (.str "string")) = .string
    ∧ parseParamKind (some (.str "float")) = .number
    ∧ parseParamKind (some (.str "Double")) = .number
    ∧ parseParamKind (some (.str "number")) = .number
    ∧ parseParamKind (some (.str "bool")) = .boolean
    ∧ parseParamKind (some (.str "BOOLEAN")) = .boolean
    ∧ parseParamKind (some (.str "null")) = .null
    ∧ parseParamKind (some (.str "object")) = .object
    ∧ parseParamKind (some (.str "array")) = .array
    ∧ parseParamKind (some (.str "whatever")) = .unknown
    ∧ parseParamKind none = .unknown
    ∧ parseParamKind (some .null) = .unknown
    ∧ parseParamKind (some (.bool true)) = .unknown
    ∧ parseParamKind (some (.bool false)) = .unknown
    ∧ (∀ s : String, parseParamKind (some (.str s)) ≠ .unknown →
        jsToLower (jsTrim s) ∈
          (["string", "integer", "int", "number", "float", "double", "boolean",
            "bool", "null", "object", "array"] : List String)) := by
  refine ⟨?_, by decide, by decide, by decide, by decide, by decide, by decide,
    by decide, by decide, by decide,
    by rw [parseParamKind_str]; decide, by rw [parseParamKind_str]; decide,
    by rw [parseParamKind_str]; decide, by rw [parseParamKind_str]; decide,
    by rw [parseParamKind_str]; decide, by rw [parseParamKind_str]; decide,
    by rw [parseParamKind_str]; decide, by rw [parseParamKind_str]; decide,
    by rw [parseParamKind_str]; decide, by rw [parseParamKind_str]; decide,
    by rw [parseParamKind_str]; decide, by rw [parseParamKind_str]; decide,
    by rw [parseParamKind_str]; decide, by rw [parseParamKind_str]; decide,
    by simp [parseParamKind, jsCoalesceStr]; decide,
    by simp [parseParamKind, jsCoalesceStr]; decide,
    by simp [parseParamKind, jsCoalesceStr, jsToStr]; decide,
    by simp [parseParamKind, jsCoalesceStr, jsToStr]; decide, ?_⟩
  · intro q hq
    rw [parseParamKind_num]
    rw [if_neg (by omega), if_neg (by omega), if_neg (by omega), if_neg (by omega),
      if_neg (by omega), if_neg (by omega), if_neg (by omega)]
  · intro s h
    rw [parseParamKind_str] at h
    revert h
    simp only [kindOfLowered]
    split_ifs with h1 h2 h3 h4 h5 h6 h7 <;> intro h
    · simp [h1]
    · rcases h2 with h2 | h2 <;> simp [h2]
    · rcases h3 with h3 | h3 | h3 <;> simp [h3]
    · rcases h4 with h4 | h4 <;> simp [h4]
    · simp [h5]
    · simp [h6]
    · simp [h7]
    · exact absurd rfl h

theorem parseParamKind_amended_spec_witness :
    parseParamKind (some (.num 42)) = .unknown :=
  parseParamKind_amended_spec.1 42 (Or.inr (by decide))

theorem parseActionParamSchema_required (raw : JsValue) :
    (parseActionParamSchema raw).required =
      (match objGet (asRecordL raw) "required" with
       | none => true
       | some .null => true
       | some v => toBool (some v)) := by
  rw [parseActionParamSchema]
  rfl

/-- C6: a schema node whose raw JSON omits `required` (or has it null)
parses with `required = true`; `required` is false exactly when the raw
value is present and is neither null nor the literal boolean `true`. -/
theorem paramSchema_required_defaults_true (raw : JsValue) :
    ((objGet (asRecordL raw) "required" = none ∨
        objGet (asRecordL raw) "required" = some .null) →
      (parseActionParamSchema raw).required = true)
    ∧ ((parseActionParamSchema raw).required = false ↔
        ∃ v, objGet (asRecordL raw) "required" = some v ∧ v ≠ .null ∧
          v ≠ .bool true) := by
  constructor
  · rintro (h | h) <;> rw [parseActionParamSchema_required, h]
  · rw [parseActionParamSchema_required]
    cases hv : objGet (asRecordL raw) "required" with
    | none => simp
    | some v =>
      cases v with
      | null => simp
      | bool b => cases b <;> simp [toBool]
      | num q => simp [toBool]
      | str s => simp [toBool]
      | arr xs => simp [toBool]
      | obj fs => simp [toBool]

theorem paramSchema_required_defaults_true_witness :
    (parseActionParamSchema (JsValue.obj [("kind", JsValue.str "string")])).required = true
    ∧ (parseActionParamSchema (JsValue.obj [("required", JsValue.bool false)])).required
        = false :=
  ⟨(paramSchema_required_defaults_true (JsValue.obj [("kind", JsValue.str "string")])).1
      (Or.inl rfl),
   (paramSchema_required_defaults_true (JsValue.obj [("required", JsValue.bool false)])).2.mpr
      ⟨JsValue.bool false, rfl, by simp, by simp⟩⟩

/-- C7: `requireString` returns the field unchanged when it is a string that
is non-empty after trimming, and otherwise (missing, not a string, or
trim-empty) raises a `contract` error whose message references
`path.key`; in particular on the empty record with key `sessionId` and path
`path` it raises a contract error referencing `path.sessionId`. -/
theorem requireString_contract_spec (data : List (String × JsValue))
    (key path : String) :
    (∀ s : String, objGet data key = some (.str s) → (jsTrim s).length ≠ 0 →
      requireString data key path = .ok s)
    ∧ ((∀ s : String, objGet data key = some (.str s) → (jsTrim s).length = 0) →
      requireString data key path = .error ⟨.contract,
        "Invalid API contract at " ++ path ++ "." ++ key ++ ": expected non-empty string.",
        none, none⟩)
    ∧ requireString [] "sessionId" "path" = .error ⟨.contract,
        "Invalid API contract at path.sessionId: expected non-empty string.",
        none, none⟩ := by
  refine ⟨?_, ?_, rfl⟩
  · intro s hs hne
    unfold requireString
    rw [hs]
    simp [hne]
  · intro hcond
    unfold requireString
    cases hv : objGet data key with
    | none => rfl
    | some v =>
      cases v with
      | str s => simp [hcond s hv]
      | null => rfl
      | bool b => rfl
      | num q => rfl
      | arr xs => rfl
      | obj fs => rfl

theorem requireString_contract_spec_witness :
    requireString [("sessionId", JsValue.str "abc")] "sessionId" "p" = .ok "abc"
    ∧ requireString [] "k" "p" = .error ⟨.contract,
        "Invalid API contract at p.k: expected non-empty string.", none, none⟩ :=
  ⟨(requireString_contract_spec [("sessionId", JsValue.str "abc")] "sessionId" "p").1
      "abc" rfl (by decide),
   (requireString_contract_spec [] "k" "p").2.1 (fun s hs => by simp [objGet] at hs)⟩

/-- C8: a body that is not valid JSON (the `JSON.parse` oracle threw) always
yields a `parse`-kind error — never any other kind — and its message carries
the HTML-detection hint exactly when the body, after leading whitespace is
stripped, starts with `<!DOCTYPE html` or `<html`. -/
theorem parse_error_kind_and_html_hint (text : String) :
    parseJsonOrThrow none text = .error (parseFailureError text)
    ∧ (parseFailureError text).kind = .parse
    ∧ (parseFailureError text).message =
        "Failed to parse API response as JSON. " ++
        (if jsStartsWith (jsTrimStart text) "<!DOCTYPE html" ||
            jsStartsWith (jsTrimStart text) "<html" then
          "It looks like HTML. \"Server URL\" likely points to a website, not ACI backend."
        else "Server URL may be incorrect, or backend returned non-JSON output.") ++
        " Raw response: " ++ jsTake 800 (jsTrimStart text) := by
  refine ⟨rfl, rfl, ?_⟩
  unfold parseFailureError
  dsimp only
  rw [jsStartsWith_take (by decide), jsStartsWith_take (by decide)]

/-- C9: `toInt` truncates a (finite) number toward zero — characterized as
the sign times the floor of the absolute value — parses decimal strings via
`parseInt` semantics, and yields 0 for every other input; as a total
function it never throws. -/
theorem toInt_spec :
    (∀ q : ℚ, toInt (some (.num q)) = (if 0 ≤ q then (1 : ℤ) else -1) * ⌊|q|⌋)
    ∧ (∀ b : Bool, toInt (some (.bool b)) = 0)
    ∧ toInt (some .null) = 0
    ∧ toInt none = 0
    ∧ (∀ xs : List JsValue, toInt (some (.arr xs)) = 0)
    ∧ (∀ fs : List (String × JsValue), toInt (some (.obj fs)) = 0)
    ∧ toInt (some (.str "42")) = 42
    ∧ toInt (some (.str "  -17")) = -17
    ∧ toInt (some (.str "3.9")) = 3
    ∧ toInt (some (.str "+8abc")) = 8
    ∧ toInt (some (.str "abc")) = 0
    ∧ toInt (some (.str "")) = 0
    ∧ toInt (some (.num (mkRat 7 2))) = 3
    ∧ toInt (some (.num (mkRat (-7) 2))) = -3 := by
  refine ⟨?_, fun b => by cases b <;> rfl, rfl, rfl, fun xs => rfl, fun fs => rfl,
    by decide, by decide, by decide, by decide, by decide, by decide,
    by decide, by decide⟩
  intro q
  show jsTrunc q = _
  unfold jsTrunc
  rcases le_or_lt 0 q with hq | hq
  · rw [if_pos hq, one_mul, abs_of_nonneg hq, Rat.floor_def]
    exact Int.tdiv_eq_ediv (Rat.num_nonneg.mpr hq) (Int.natCast_nonneg q.den)
  · have hnum : q.num < 0 := by
      by_contra hc
      exact absurd (Rat.num_nonneg.mp (by omega)) (not_le.mpr hq)
    rw [if_neg (not_le.mpr hq), abs_of_neg hq, Rat.floor_def, Rat.neg_num, Rat.neg_den]
    have h1 : q.num.tdiv (q.den : ℤ) = -((-q.num).tdiv (q.den : ℤ)) := by
      rw [Int.neg_tdiv, neg_neg]
    rw [h1, Int.tdiv_eq_ediv (by omega) (Int.natCast_nonneg q.den)]
    ring

end Aperture
